import Mathlib

/-!
Shallow embedding of the rothschild transaction generator
(`src/rothschild/src/main.rs`).

Machine integers (`u64`, `usize`) are modelled as `Nat`: the program never
relies on wraparound (Rust debug builds would panic on overflow), and every
arithmetic operation in the embedded fragment mirrors the source expression
for expression.  `u64` subtraction is modelled by truncated `Nat`
subtraction.  External collaborator types (addresses, scripts, transaction
constants) are modelled abstractly: only their identity matters to the
embedded logic, never their encoding.
-/

set_option autoImplicit false

namespace Rothschild

/-- Identifier of a spendable output: source transaction id plus index
(`kaspa_consensus_core::tx::TransactionOutpoint`, modelled abstractly). -/
structure TransactionOutpoint where
  transaction_id : Nat
  index : Nat
deriving DecidableEq, Repr

/-- Script attached to an output (external collaborator type, modelled
abstractly as an opaque payload). -/
structure ScriptPublicKey where
  script : List Nat
deriving DecidableEq, Repr

/-- Wallet address (external collaborator type, modelled abstractly). -/
structure Address where
  payload : List Nat
deriving DecidableEq, Repr

/-- Model of `kaspa_txscript::pay_to_address_script`: an injection from
addresses to scripts; the embedded code only ever compares the results. -/
def pay_to_address_script (kaspa_addr : Address) : ScriptPublicKey :=
  { script := kaspa_addr.payload }

/-- Snapshot of one unspent output
(`kaspa_consensus_core::tx::UtxoEntry`). -/
structure UtxoEntry where
  amount : Nat
  script_public_key : ScriptPublicKey
  block_daa_score : Nat
  is_coinbase : Bool
deriving DecidableEq, Repr

/-- One transaction input (`kaspa_consensus_core::tx::TransactionInput`). -/
structure TransactionInput where
  previous_outpoint : TransactionOutpoint
  signature_script : List Nat
  sequence : Nat
  sig_op_count : Nat
deriving DecidableEq, Repr

/-- One transaction output (`kaspa_consensus_core::tx::TransactionOutput`). -/
structure TransactionOutput where
  value : Nat
  script_public_key : ScriptPublicKey
deriving DecidableEq, Repr

/-- Transaction version constant (`kaspa_consensus_core::constants::TX_VERSION`,
modelled abstractly; its value is irrelevant to the claims). -/
def TX_VERSION : Nat := 0

/-- Native subnetwork id (`SUBNETWORK_ID_NATIVE`, modelled abstractly). -/
def SUBNETWORK_ID_NATIVE : Nat := 0

/-- Unsigned transaction body (`kaspa_consensus_core::tx::Transaction`). -/
structure Transaction where
  version : Nat
  inputs : List TransactionInput
  outputs : List TransactionOutput
  lock_time : Nat
  subnetwork_id : Nat
  gas : Nat
  payload : List Nat
deriving DecidableEq, Repr

/-- The pending-outpoint tracker: `HashMap<TransactionOutpoint, u64>` mapping
an outpoint to the millisecond timestamp it was marked in-flight, modelled as
an association list whose keys are kept unique by the insert operation. -/
abbrev PendingMap : Type := List (TransactionOutpoint × Nat)

/-- Model of `HashMap::contains_key`. -/
def contains_key (pending : PendingMap) (op : TransactionOutpoint) : Bool :=
  List.any pending (fun kv => decide (kv.1 = op))

/-- Model of `HashMap::insert`: overwrite the timestamp when the key is
already present, append the pair otherwise. -/
def pending_insert (pending : PendingMap) (op : TransactionOutpoint) (t : Nat) : PendingMap :=
  if contains_key pending op then
    List.map (fun kv => if kv.1 = op then (op, t) else kv) pending
  else
    pending ++ [(op, t)]

/-- Constant `DEFAULT_SEND_AMOUNT` from the source. -/
def DEFAULT_SEND_AMOUNT : Nat := 10000

/-- Constant `FEE_PER_MASS` from the source. -/
def FEE_PER_MASS : Nat := 10

/-- Constant `MAX_UTXOS` from `select_utxos`. -/
def MAX_UTXOS : Nat := 84

/-- Transcription of `estimated_mass`:
`200 + 34 * num_outs + 1000 * (num_utxos as u64)`. -/
def estimated_mass (num_utxos : Nat) (num_outs : Nat) : Nat :=
  200 + 34 * num_outs + 1000 * num_utxos

/-- Transcription of `required_fee`: `FEE_PER_MASS * estimated_mass(..)`. -/
def required_fee (num_utxos : Nat) (num_outs : Nat) : Nat :=
  FEE_PER_MASS * estimated_mass num_utxos num_outs

/-- Transcription of `is_utxo_spendable`: confirmations needed are 10 for a
regular output and `coinbase_maturity * 2` for a coinbase output, and the
entry is spendable when `block_daa_score + needed_confs < virtual_daa_score`. -/
def is_utxo_spendable (entry : UtxoEntry) (virtual_daa_score : Nat) (coinbase_maturity : Nat) : Bool :=
  let needed_confs := if !entry.is_coinbase then 10 else coinbase_maturity * 2
  decide (entry.block_daa_score + needed_confs < virtual_daa_score)

/-- Transcription of `should_maximize_inputs`: estimate the free UTXO count
as `utxos.len() - pending.len()` clamped at zero, switch maximizing on above
1,000,000 free UTXOs, off below 500,000, and keep the old mode otherwise. -/
def should_maximize_inputs (old_value : Bool)
    (utxos : List (TransactionOutpoint × UtxoEntry)) (pending : PendingMap) : Bool :=
  let estimated_utxos :=
    if List.length pending < utxos.length then utxos.length - List.length pending else 0
  if !old_value && decide (1000000 < estimated_utxos) then
    true
  else if old_value && decide (estimated_utxos < 500000) then
    false
  else
    old_value

/-- Transcription of `clean_old_pending_outpoints`: drop every entry whose
age `now - time` exceeds `3600 * 1000` milliseconds, keep the rest. -/
def clean_old_pending_outpoints (now : Nat) (pending : PendingMap) : PendingMap :=
  List.filter (fun kv => !decide (3600 * 1000 < now - kv.2)) pending

/-- The lazily filtered iteration order of `select_utxos`:
`utxos.iter().filter(|(op, _)| !pending.contains_key(op))`. -/
def free_utxos (utxos : List (TransactionOutpoint × UtxoEntry)) (pending : PendingMap) :
    List (TransactionOutpoint × UtxoEntry) :=
  utxos.filter (fun p => !contains_key pending p.1)

/-- Transcription of the loop body of `select_utxos`: fold over the filtered
UTXO list, accumulating amount and selection; after each push recompute the
fee, succeed when the accumulated amount covers `min_amount + fee` and
(when maximizing) exactly `MAX_UTXOS` inputs are selected, abort with the
empty result when the selection grows past `MAX_UTXOS`, and also return the
empty result when the list is exhausted. -/
def select_utxos_loop (min_amount : Nat) (num_outs : Nat) (maximize_utxos : Bool) :
    List (TransactionOutpoint × UtxoEntry) → Nat → List (TransactionOutpoint × UtxoEntry) →
    List (TransactionOutpoint × UtxoEntry) × Nat
  | [], _, _ => ([], 0)
  | p :: rest, selected_amount0, selected0 =>
    let selected_amount := selected_amount0 + p.2.amount
    let selected := selected0 ++ [p]
    let fee := required_fee selected.length num_outs
    if min_amount + fee ≤ selected_amount ∧ (maximize_utxos = false ∨ selected.length = MAX_UTXOS) then
      (selected, selected_amount - fee)
    else if MAX_UTXOS < selected.length then
      ([], 0)
    else
      select_utxos_loop min_amount num_outs maximize_utxos rest selected_amount selected

/-- Transcription of `select_utxos`. -/
def select_utxos (utxos : List (TransactionOutpoint × UtxoEntry)) (min_amount : Nat)
    (num_outs : Nat) (maximize_utxos : Bool) (pending : PendingMap) :
    List (TransactionOutpoint × UtxoEntry) × Nat :=
  select_utxos_loop min_amount num_outs maximize_utxos (free_utxos utxos pending) 0 []

/-- Transcription of `generate_tx`: one input per selected UTXO (empty
signature script, sequence 0, one sig op), `num_outs` outputs each of value
`send_amount / num_outs` paying `pay_to_address_script(kaspa_addr)`. -/
def generate_tx (utxos : List (TransactionOutpoint × UtxoEntry)) (send_amount : Nat)
    (num_outs : Nat) (kaspa_addr : Address) : Transaction :=
  let script_public_key := pay_to_address_script kaspa_addr
  let inputs := utxos.map (fun p =>
    { previous_outpoint := p.1, signature_script := [], sequence := 0,
      sig_op_count := 1 : TransactionInput })
  let outputs := (List.range num_outs).map (fun _ =>
    { value := send_amount / num_outs, script_public_key := script_public_key : TransactionOutput })
  { version := TX_VERSION, inputs := inputs, outputs := outputs, lock_time := 0,
    subnetwork_id := SUBNETWORK_ID_NATIVE, gas := 0, payload := [] }

/-- Transcription of the pure core of `maybe_send_tx`: pick the output count
from the maximizing mode, run selection with the constant target
`DEFAULT_SEND_AMOUNT`, return no transaction when the selected amount is 0,
and otherwise the transaction generated from the selection.  (The RPC
submission hand-off and the marking of the chosen inputs as pending are
side effects outside the returned value and are elided here.) -/
def maybe_send_tx (kaspa_addr : Address) (utxos : List (TransactionOutpoint × UtxoEntry))
    (pending : PendingMap) (maximize_inputs : Bool) : Option Transaction :=
  let num_outs := if maximize_inputs then 1 else 2
  let r := select_utxos utxos DEFAULT_SEND_AMOUNT num_outs maximize_inputs pending
  if r.2 = 0 then
    none
  else
    some (generate_tx r.1 r.2 num_outs kaspa_addr)

/-- Sum of the amounts of a list of UTXO pairs (specification helper:
the accumulated amount of a processed segment of the iteration). -/
def amount_sum (l : List (TransactionOutpoint × UtxoEntry)) : Nat :=
  (l.map (fun p => p.2.amount)).sum

/-- Success condition of the selection loop after `k` inputs of the filtered
list `fs` have been taken: the accumulated amount covers the target plus the
recomputed fee, and when maximizing the selection has reached `MAX_UTXOS`. -/
def success_cond (fs : List (TransactionOutpoint × UtxoEntry)) (min_amount : Nat)
    (num_outs : Nat) (maximize_utxos : Bool) (k : Nat) : Prop :=
  min_amount + required_fee k num_outs ≤ amount_sum (fs.take k) ∧
    (maximize_utxos = false ∨ k = MAX_UTXOS)

instance (fs : List (TransactionOutpoint × UtxoEntry)) (min_amount : Nat)
    (num_outs : Nat) (maximize_utxos : Bool) (k : Nat) :
    Decidable (success_cond fs min_amount num_outs maximize_utxos k) :=
  inferInstanceAs (Decidable (_ ∧ _))

/-- Adaptive controller as the specification words it
(`nextMode(currentlyMaximizing, estimatedFreeUtxoCount)`): enter maximizing
mode when not already maximizing and the estimate exceeds 1,000,000, exit
when maximizing and the estimate is below 500,000, otherwise unchanged. -/
def nextMode (currentlyMaximizing : Bool) (estimatedFreeUtxoCount : Nat) : Bool :=
  if currentlyMaximizing = false ∧ 1000000 < estimatedFreeUtxoCount then
    true
  else if currentlyMaximizing = true ∧ estimatedFreeUtxoCount < 500000 then
    false
  else
    currentlyMaximizing

/-- Free-UTXO estimate as the specification words it:
`max(0, utxoSetSize - pendingMapSize)`. -/
def estimatedFreeUtxoCount (utxoSetSize : Nat) (pendingMapSize : Nat) : Nat :=
  max 0 (utxoSetSize - pendingMapSize)

/-! Concrete fixtures used by witnesses and counterexamples. -/

/-- An empty script, for fixture entries. -/
def spk0 : ScriptPublicKey := { script := [] }

/-- Fixture outpoint with a given index. -/
def mkOp (i : Nat) : TransactionOutpoint := { transaction_id := 0, index := i }

/-- Fixture non-coinbase entry with a given amount. -/
def mkEntry (a : Nat) : UtxoEntry :=
  { amount := a, script_public_key := spk0, block_daa_score := 0, is_coinbase := false }

/-- Fixture wallet address. -/
def addr0 : Address := { payload := [7] }

/-- The specification's worked example: amounts 100000, 50000, 20000 in
descending order. -/
def utxos3 : List (TransactionOutpoint × UtxoEntry) :=
  [(mkOp 1, mkEntry 100000), (mkOp 2, mkEntry 50000), (mkOp 3, mkEntry 20000)]

/-- Eighty-five equal UTXOs of 20000 each: with target 840000 and two
outputs the success condition first holds at the 85th input. -/
def cex85 : List (TransactionOutpoint × UtxoEntry) :=
  (List.range 85).map (fun i => (mkOp i, mkEntry 20000))

/-- A single-element UTXO set with amount 100000. -/
def utxos1 : List (TransactionOutpoint × UtxoEntry) := [(mkOp 1, mkEntry 100000)]

/-- The transaction generated on the `utxos1` fixture: net amount
100000 - 12680 = 87320 split over two outputs. -/
def txW : Transaction := generate_tx utxos1 87320 2 addr0

/-- Fixture list of a given length, for exercising the adaptive controller
at concrete UTXO-set sizes. -/
def dummy_utxos (n : Nat) : List (TransactionOutpoint × UtxoEntry) :=
  List.replicate n (mkOp 0, mkEntry 1)

/-! Helper lemmas about the selection loop. -/

theorem select_utxos_loop_cases (min_amount num_outs : Nat) (maximize_utxos : Bool) :
    ∀ (rest : List (TransactionOutpoint × UtxoEntry)) (acc : Nat)
      (sel : List (TransactionOutpoint × UtxoEntry)), sel.length ≤ MAX_UTXOS →
      select_utxos_loop min_amount num_outs maximize_utxos rest acc sel = ([], 0) ∨
      (1 ≤ (select_utxos_loop min_amount num_outs maximize_utxos rest acc sel).1.length ∧
        (select_utxos_loop min_amount num_outs maximize_utxos rest acc sel).1.length ≤ MAX_UTXOS + 1 ∧
        min_amount ≤ (select_utxos_loop min_amount num_outs maximize_utxos rest acc sel).2) := by
  intro rest
  induction rest with
  | nil => intro acc sel _; exact Or.inl rfl
  | cons p rest ih =>
    intro acc sel hsel
    simp only [select_utxos_loop]
    by_cases hc : min_amount + required_fee (sel ++ [p]).length num_outs ≤ acc + p.2.amount ∧
        (maximize_utxos = false ∨ (sel ++ [p]).length = MAX_UTXOS)
    · rw [if_pos hc]
      refine Or.inr ⟨?_, ?_, ?_⟩
      · simp
      · simp only [List.length_append, List.length_cons, List.length_nil]
        omega
      · have h1 := hc.1
        omega
    · rw [if_neg hc]
      by_cases habort : MAX_UTXOS < (sel ++ [p]).length
      · rw [if_pos habort]; exact Or.inl rfl
      · rw [if_neg habort]
        exact ih (acc + p.2.amount) (sel ++ [p]) (by omega)

theorem select_utxos_cases (utxos : List (TransactionOutpoint × UtxoEntry))
    (min_amount num_outs : Nat) (maximize_utxos : Bool) (pending : PendingMap) :
    select_utxos utxos min_amount num_outs maximize_utxos pending = ([], 0) ∨
      (1 ≤ (select_utxos utxos min_amount num_outs maximize_utxos pending).1.length ∧
        (select_utxos utxos min_amount num_outs maximize_utxos pending).1.length ≤ MAX_UTXOS + 1 ∧
        min_amount ≤ (select_utxos utxos min_amount num_outs maximize_utxos pending).2) :=
  select_utxos_loop_cases min_amount num_outs maximize_utxos
    (free_utxos utxos pending) 0 [] (by simp [MAX_UTXOS])

theorem select_utxos_loop_mem (min_amount num_outs : Nat) (maximize_utxos : Bool) :
    ∀ (rest : List (TransactionOutpoint × UtxoEntry)) (acc : Nat)
      (sel : List (TransactionOutpoint × UtxoEntry)) (x : TransactionOutpoint × UtxoEntry),
      x ∈ (select_utxos_loop min_amount num_outs maximize_utxos rest acc sel).1 →
      x ∈ sel ∨ x ∈ rest := by
  intro rest
  induction rest with
  | nil => intro acc sel x hx; simp [select_utxos_loop] at hx
  | cons p rest ih =>
    intro acc sel x hx
    simp only [select_utxos_loop] at hx
    by_cases hc : min_amount + required_fee (sel ++ [p]).length num_outs ≤ acc + p.2.amount ∧
        (maximize_utxos = false ∨ (sel ++ [p]).length = MAX_UTXOS)
    · rw [if_pos hc] at hx
      simp only [List.mem_append, List.mem_singleton] at hx
      rcases hx with hx | hx
      · exact Or.inl hx
      · exact Or.inr (by simp [hx])
    · rw [if_neg hc] at hx
      by_cases habort : MAX_UTXOS < (sel ++ [p]).length
      · rw [if_pos habort] at hx; simp at hx
      · rw [if_neg habort] at hx
        rcases ih (acc + p.2.amount) (sel ++ [p]) x hx with hx | hx
        · simp only [List.mem_append, List.mem_singleton] at hx
          rcases hx with hx | hx
          · exact Or.inl hx
          · exact Or.inr (by simp [hx])
        · exact Or.inr (List.mem_cons_of_mem _ hx)

theorem select_utxos_mem (utxos : List (TransactionOutpoint × UtxoEntry))
    (min_amount num_outs : Nat) (maximize_utxos : Bool) (pending : PendingMap)
    (x : TransactionOutpoint × UtxoEntry)
    (hx : x ∈ (select_utxos utxos min_amount num_outs maximize_utxos pending).1) :
    x ∈ free_utxos utxos pending := by
  rcases select_utxos_loop_mem min_amount num_outs maximize_utxos
      (free_utxos utxos pending) 0 [] x hx with h | h
  · simp at h
  · exact h

theorem amount_sum_append (l1 l2 : List (TransactionOutpoint × UtxoEntry)) :
    amount_sum (l1 ++ l2) = amount_sum l1 + amount_sum l2 := by
  simp [amount_sum]

theorem take_succ_concat (fs : List (TransactionOutpoint × UtxoEntry)) (i : Nat)
    (h : i < fs.length) : fs.take (i + 1) = fs.take i ++ [fs[i]] := by
  rw [List.take_succ, List.getElem?_eq_getElem h]
  rfl

theorem amount_sum_take_succ (fs : List (TransactionOutpoint × UtxoEntry)) (i : Nat)
    (h : i < fs.length) :
    amount_sum (fs.take (i + 1)) = amount_sum (fs.take i) + (fs[i]).2.amount := by
  rw [take_succ_concat fs i h, amount_sum_append]
  simp [amount_sum]

theorem select_utxos_loop_reaches (min_amount num_outs : Nat) (maximize_utxos : Bool)
    (fs : List (TransactionOutpoint × UtxoEntry)) (k : Nat)
    (hk85 : k ≤ MAX_UTXOS + 1) (hklen : k ≤ fs.length)
    (hC : success_cond fs min_amount num_outs maximize_utxos k)
    (hmin : ∀ j, 1 ≤ j → j < k → ¬ success_cond fs min_amount num_outs maximize_utxos j) :
    ∀ (d i : Nat), i + d = k → i < k →
      select_utxos_loop min_amount num_outs maximize_utxos (fs.drop i)
          (amount_sum (fs.take i)) (fs.take i)
        = (fs.take k, amount_sum (fs.take k) - required_fee k num_outs) := by
  have hM : MAX_UTXOS = 84 := rfl
  intro d
  induction d with
  | zero => intro i hid hik; omega
  | succ d ih =>
    intro i hid hik
    have hilen : i < fs.length := lt_of_lt_of_le hik hklen
    rw [List.drop_eq_getElem_cons hilen]
    simp only [select_utxos_loop]
    rw [← take_succ_concat fs i hilen, ← amount_sum_take_succ fs i hilen]
    have hlen1 : (fs.take (i + 1)).length = i + 1 := by
      rw [List.length_take]; omega
    rw [hlen1]
    rcases Nat.lt_or_ge (i + 1) k with hlt | hge
    · have hnc := hmin (i + 1) (by omega) hlt
      unfold success_cond at hnc
      rw [if_neg hnc, if_neg (by omega : ¬ MAX_UTXOS < i + 1)]
      exact ih (i + 1) (by omega) hlt
    · have heq : i + 1 = k := by omega
      unfold success_cond at hC
      rw [if_pos (by rw [heq]; exact hC)]
      rw [heq]

theorem select_utxos_loop_exhausts (min_amount num_outs : Nat) (maximize_utxos : Bool)
    (fs : List (TransactionOutpoint × UtxoEntry))
    (hfail : ∀ j, 1 ≤ j → j ≤ MAX_UTXOS + 1 → j ≤ fs.length →
      ¬ success_cond fs min_amount num_outs maximize_utxos j) :
    ∀ (d i : Nat), fs.length ≤ i + d → i ≤ MAX_UTXOS →
      select_utxos_loop min_amount num_outs maximize_utxos (fs.drop i)
          (amount_sum (fs.take i)) (fs.take i) = ([], 0) := by
  have hM : MAX_UTXOS = 84 := rfl
  intro d
  induction d with
  | zero =>
    intro i hlen _
    rw [List.drop_eq_nil_of_le (by omega)]
    rfl
  | succ d ih =>
    intro i hlen hi
    by_cases hil : i < fs.length
    · rw [List.drop_eq_getElem_cons hil]
      simp only [select_utxos_loop]
      rw [← take_succ_concat fs i hil, ← amount_sum_take_succ fs i hil]
      have hlen1 : (fs.take (i + 1)).length = i + 1 := by
        rw [List.length_take]; omega
      rw [hlen1]
      have hnc := hfail (i + 1) (by omega) (by omega) (by omega)
      unfold success_cond at hnc
      rw [if_neg hnc]
      by_cases habort : MAX_UTXOS < i + 1
      · rw [if_pos habort]
      · rw [if_neg habort]
        exact ih (i + 1) (by omega) (by omega)
    · rw [List.drop_eq_nil_of_le (by omega)]
      rfl

theorem select_utxos_succeeds_at (utxos : List (TransactionOutpoint × UtxoEntry))
    (min_amount num_outs : Nat) (maximize_utxos : Bool) (pending : PendingMap) (k : Nat)
    (hk1 : 1 ≤ k) (hk85 : k ≤ MAX_UTXOS + 1)
    (hklen : k ≤ (free_utxos utxos pending).length)
    (hC : success_cond (free_utxos utxos pending) min_amount num_outs maximize_utxos k)
    (hmin : ∀ j, 1 ≤ j → j < k →
      ¬ success_cond (free_utxos utxos pending) min_amount num_outs maximize_utxos j) :
    select_utxos utxos min_amount num_outs maximize_utxos pending
      = ((free_utxos utxos pending).take k,
         amount_sum ((free_utxos utxos pending).take k) - required_fee k num_outs) :=
  select_utxos_loop_reaches min_amount num_outs maximize_utxos
    (free_utxos utxos pending) k hk85 hklen hC hmin k 0 (by omega) (by omega)

theorem select_utxos_fails (utxos : List (TransactionOutpoint × UtxoEntry))
    (min_amount num_outs : Nat) (maximize_utxos : Bool) (pending : PendingMap)
    (hfail : ∀ j, 1 ≤ j → j ≤ MAX_UTXOS + 1 → j ≤ (free_utxos utxos pending).length →
      ¬ success_cond (free_utxos utxos pending) min_amount num_outs maximize_utxos j) :
    select_utxos utxos min_amount num_outs maximize_utxos pending = ([], 0) :=
  select_utxos_loop_exhausts min_amount num_outs maximize_utxos
    (free_utxos utxos pending) hfail (free_utxos utxos pending).length 0
    (by omega) (by simp [MAX_UTXOS])

theorem should_maximize_inputs_eq (old_value : Bool)
    (utxos : List (TransactionOutpoint × UtxoEntry)) (pending : PendingMap) :
    should_maximize_inputs old_value utxos pending
      = nextMode old_value (estimatedFreeUtxoCount utxos.length (List.length pending)) := by
  have hest : (if List.length pending < utxos.length then
        utxos.length - List.length pending else 0)
      = estimatedFreeUtxoCount utxos.length (List.length pending) := by
    unfold estimatedFreeUtxoCount
    rw [Nat.zero_max]
    split <;> omega
  unfold should_maximize_inputs nextMode
  rw [hest]
  rcases old_value with _ | _ <;>
    by_cases h1 : 1000000 < estimatedFreeUtxoCount utxos.length (List.length pending) <;>
    by_cases h2 : estimatedFreeUtxoCount utxos.length (List.length pending) < 500000 <;>
    simp [h1, h2]

theorem pending_insert_self (pending : PendingMap) (op : TransactionOutpoint) (t : Nat) :
    (op, t) ∈ pending_insert pending op t := by
  unfold pending_insert
  split
  · rename_i h
    unfold contains_key at h
    rw [List.any_eq_true] at h
    obtain ⟨kv, hkv, hop⟩ := h
    rw [decide_eq_true_eq] at hop
    rw [List.mem_map]
    exact ⟨kv, hkv, by rw [if_pos hop]⟩
  · simp

theorem pending_insert_key (pending : PendingMap) (op : TransactionOutpoint) (t : Nat)
    (kv : TransactionOutpoint × Nat) (h : kv ∈ pending_insert pending op t)
    (hk : kv.1 = op) : kv = (op, t) := by
  unfold pending_insert at h
  split at h
  · rw [List.mem_map] at h
    obtain ⟨a, ha, hfa⟩ := h
    by_cases hao : a.1 = op
    · rw [if_pos hao] at hfa; exact hfa.symm
    · rw [if_neg hao] at hfa
      rw [← hfa] at hk
      exact absurd hk hao
  · rename_i hnc
    rw [List.mem_append] at h
    rcases h with h | h
    · exact absurd (by
        unfold contains_key
        rw [List.any_eq_true]
        exact ⟨kv, h, by rw [decide_eq_true_eq]; exact hk⟩) hnc
    · simpa using h

theorem generate_tx_outputs (utxos : List (TransactionOutpoint × UtxoEntry))
    (send_amount num_outs : Nat) (kaspa_addr : Address) :
    (generate_tx utxos send_amount num_outs kaspa_addr).outputs
      = (List.range num_outs).map (fun _ =>
          { value := send_amount / num_outs,
            script_public_key := pay_to_address_script kaspa_addr : TransactionOutput }) := rfl

/-! Claim theorems. -/

/-- C1, counterexample: on a single spendable UTXO of amount 100000 with two
outputs, a tick builds a transaction whose outputs each carry 43660 units
(the selected net amount 87320 split in two), not `targetAmount / numOutputs`
= 5000 as the claim states. -/
theorem C1_counterexample :
    Option.map (fun tx => tx.outputs.map (fun o => o.value)) (maybe_send_tx addr0 utxos1 [] false)
      = some [43660, 43660] ∧ (43660 : Nat) ≠ DEFAULT_SEND_AMOUNT / 2 := by decide

/-- C1, amended: every tick that builds a transaction produces `numOutputs`
equal-value outputs paying the wallet's own address, each of value
`selectedAmount / numOutputs` (integer division, with the truncation loss
accepted), where `selectedAmount` is the net amount returned by selection
and is at least the fixed 10,000 target; the 10,000 constant is only the
selection threshold, not the per-output basis. -/
theorem C1_tx_outputs (kaspa_addr : Address) (utxos : List (TransactionOutpoint × UtxoEntry))
    (pending : PendingMap) (maximize_inputs : Bool) (tx : Transaction)
    (h : maybe_send_tx kaspa_addr utxos pending maximize_inputs = some tx) :
    tx.outputs.length = (if maximize_inputs then 1 else 2) ∧
    DEFAULT_SEND_AMOUNT ≤
      (select_utxos utxos DEFAULT_SEND_AMOUNT (if maximize_inputs then 1 else 2)
        maximize_inputs pending).2 ∧
    ∀ o ∈ tx.outputs,
      o.value =
        (select_utxos utxos DEFAULT_SEND_AMOUNT (if maximize_inputs then 1 else 2)
            maximize_inputs pending).2 / (if maximize_inputs then 1 else 2) ∧
      o.script_public_key = pay_to_address_script kaspa_addr := by
  simp only [maybe_send_tx] at h
  generalize hn : (if maximize_inputs then 1 else 2 : Nat) = n at h ⊢
  split at h
  · exact absurd h (by simp)
  · rename_i h0
    replace h := Option.some.inj h
    subst h
    refine ⟨?_, ?_, ?_⟩
    · rw [generate_tx_outputs]
      simp
    · rcases select_utxos_cases utxos DEFAULT_SEND_AMOUNT n
          maximize_inputs pending with hc | ⟨_, _, h3⟩
      · rw [hc] at h0
        simp at h0
      · exact h3
    · intro o ho
      rw [generate_tx_outputs, List.mem_map] at ho
      obtain ⟨i, _, ho⟩ := ho
      rw [← ho]
      exact ⟨rfl, rfl⟩

/-- C1, witness for the amended theorem: on the single-UTXO fixture the
built transaction has two outputs of value 87320 / 2 each, paying the
wallet's address. -/
theorem C1_tx_outputs_witness :
    txW.outputs.length = 2 ∧
    DEFAULT_SEND_AMOUNT ≤ (select_utxos utxos1 DEFAULT_SEND_AMOUNT 2 false []).2 ∧
    ∀ o ∈ txW.outputs,
      o.value = (select_utxos utxos1 DEFAULT_SEND_AMOUNT 2 false []).2 / 2 ∧
      o.script_public_key = pay_to_address_script addr0 := by
  exact C1_tx_outputs addr0 utxos1 [] false txW (by decide)

/-- C2: on the UTXO set `[100000, 50000, 20000]` with empty pending map,
target 10000, two outputs and maximize off, selection picks exactly the
first entry, the fee is 10 × (200 + 34×2 + 1000×1) = 12680, and the result
is the single 100000 UTXO together with 87320. -/
theorem C2_worked_example :
    select_utxos utxos3 10000 2 false [] = ([(mkOp 1, mkEntry 100000)], 87320) ∧
      required_fee 1 2 = 12680 := by decide

set_option maxRecDepth 4000 in
/-- C3, counterexample: on eighty-five UTXOs of 20000 each with target
840000, two outputs and maximize off, selection returns 85 inputs (with a
positive amount), so the claimed dichotomy "1 to 84 inputs with positive
amount, or empty with 0" fails: the success check runs before the over-cap
abort, so the 85th input can complete a successful selection. -/
theorem C3_counterexample :
    ¬ (((select_utxos cex85 840000 2 false []).1 = [] ∧
        (select_utxos cex85 840000 2 false []).2 = 0) ∨
       (1 ≤ (select_utxos cex85 840000 2 false []).1.length ∧
        (select_utxos cex85 840000 2 false []).1.length ≤ 84 ∧
        0 < (select_utxos cex85 840000 2 false []).2)) := by decide

/-- C3, amended: for every UTXO set, pending map, target amount, output
count and mode, selection returns either between 1 and 85 inputs together
with a net amount at least the target amount (hence strictly positive
whenever the target is), or an empty input list with amount 0. -/
theorem C3_result_shape (utxos : List (TransactionOutpoint × UtxoEntry))
    (min_amount num_outs : Nat) (maximize_utxos : Bool) (pending : PendingMap) :
    select_utxos utxos min_amount num_outs maximize_utxos pending = ([], 0) ∨
      (1 ≤ (select_utxos utxos min_amount num_outs maximize_utxos pending).1.length ∧
        (select_utxos utxos min_amount num_outs maximize_utxos pending).1.length ≤ MAX_UTXOS + 1 ∧
        min_amount ≤ (select_utxos utxos min_amount num_outs maximize_utxos pending).2) :=
  select_utxos_cases utxos min_amount num_outs maximize_utxos pending

/-- C4: no outpoint that is a key of the pending map ever appears among the
inputs returned by selection, for any UTXO set, target, output count and
mode. -/
theorem C4_no_pending_selected (utxos : List (TransactionOutpoint × UtxoEntry))
    (min_amount num_outs : Nat) (maximize_utxos : Bool) (pending : PendingMap)
    (op : TransactionOutpoint) (e : UtxoEntry)
    (h : (op, e) ∈ (select_utxos utxos min_amount num_outs maximize_utxos pending).1) :
    contains_key pending op = false := by
  have hm := select_utxos_mem utxos min_amount num_outs maximize_utxos pending (op, e) h
  unfold free_utxos at hm
  rw [List.mem_filter] at hm
  simpa using hm.2

/-- C4, witness: with outpoint 3 pending, the selected 100000 UTXO at
outpoint 1 is not a pending key. -/
theorem C4_witness : contains_key [(mkOp 3, 5)] (mkOp 1) = false :=
  C4_no_pending_selected utxos3 10000 2 false [(mkOp 3, 5)] (mkOp 1) (mkEntry 100000)
    (by decide)

/-- C5: selection succeeds exactly at the first position `k` of the
pending-filtered iteration at which the accumulated amount reaches the
target plus the recomputed fee and (when maximizing) the input count has
reached the 84-input cap, returning the first `k` inputs and the
accumulated amount minus the fee; when no position up to
`min(85, setSize)` satisfies the condition — whether the count exceeds 84
first or the set is exhausted — it returns the empty result. -/
theorem C5_selection_first_success (utxos : List (TransactionOutpoint × UtxoEntry))
    (min_amount num_outs : Nat) (maximize_utxos : Bool) (pending : PendingMap) :
    (∀ k, 1 ≤ k → k ≤ MAX_UTXOS + 1 → k ≤ (free_utxos utxos pending).length →
      success_cond (free_utxos utxos pending) min_amount num_outs maximize_utxos k →
      (∀ j, 1 ≤ j → j < k →
        ¬ success_cond (free_utxos utxos pending) min_amount num_outs maximize_utxos j) →
      select_utxos utxos min_amount num_outs maximize_utxos pending
        = ((free_utxos utxos pending).take k,
           amount_sum ((free_utxos utxos pending).take k) - required_fee k num_outs)) ∧
    ((∀ j, 1 ≤ j → j ≤ MAX_UTXOS + 1 → j ≤ (free_utxos utxos pending).length →
      ¬ success_cond (free_utxos utxos pending) min_amount num_outs maximize_utxos j) →
      select_utxos utxos min_amount num_outs maximize_utxos pending = ([], 0)) :=
  ⟨fun k hk1 hk85 hklen hC hmin =>
    select_utxos_succeeds_at utxos min_amount num_outs maximize_utxos pending k
      hk1 hk85 hklen hC hmin,
   fun hfail => select_utxos_fails utxos min_amount num_outs maximize_utxos pending hfail⟩

/-- C5, witness: on a single 30000 UTXO with target 5000 and one output the
success condition first holds at position 1, and selection returns that
UTXO with 30000 − 12340 = 17660. -/
theorem C5_witness :
    select_utxos [(mkOp 9, mkEntry 30000)] 5000 1 false []
      = ([(mkOp 9, mkEntry 30000)], 17660) := by
  have h := (C5_selection_first_success [(mkOp 9, mkEntry 30000)] 5000 1 false []).1 1
    (by decide) (by decide) (by decide) (by decide)
    (fun j h1 h2 => absurd h2 (by omega))
  exact h.trans (by decide)

/-- C6: the pending sweep at time `now` retains exactly the entries whose
age `now − insertionTime` is at most 3,600,000 ms, keeping each retained
entry (and its timestamp) unchanged; in particular an entry inserted at
time `T` is still present after a sweep at `T + 3,600,000` and absent after
a sweep at `T + 3,600,001`. -/
theorem C6_pending_sweep :
    (∀ (now : Nat) (pending : PendingMap) (kv : TransactionOutpoint × Nat),
       kv ∈ clean_old_pending_outpoints now pending ↔
         kv ∈ pending ∧ now - kv.2 ≤ 3600 * 1000) ∧
    (∀ (t : Nat) (op : TransactionOutpoint) (pending : PendingMap),
       contains_key (clean_old_pending_outpoints (t + 3600000)
         (pending_insert pending op t)) op = true ∧
       contains_key (clean_old_pending_outpoints (t + 3600001)
         (pending_insert pending op t)) op = false) := by
  constructor
  · intro now pending kv
    unfold clean_old_pending_outpoints
    rw [List.mem_filter]
    simp [Nat.not_lt]
  · intro t op pending
    constructor
    · unfold contains_key
      rw [List.any_eq_true]
      refine ⟨(op, t), ?_, by simp⟩
      unfold clean_old_pending_outpoints
      rw [List.mem_filter]
      refine ⟨pending_insert_self pending op t, ?_⟩
      have ht : t + 3600000 - t = 3600000 := by omega
      rw [ht]
      decide
    · rw [Bool.eq_false_iff]
      intro hany
      unfold contains_key at hany
      rw [List.any_eq_true] at hany
      obtain ⟨kv, hkv, hop⟩ := hany
      rw [decide_eq_true_eq] at hop
      unfold clean_old_pending_outpoints at hkv
      rw [List.mem_filter] at hkv
      have hkvt := pending_insert_key pending op t kv hkv.1 hop
      have h2 := hkv.2
      rw [hkvt] at h2
      simp at h2

/-- C7: the adaptive controller is the pure hysteresis function of the
current mode and the clamped difference of the UTXO-set and pending-map
sizes, and on concrete sizes: estimate 1,000,001 switches maximizing on,
499,999 switches it off, and 700,000 leaves either mode unchanged. -/
theorem C7_adaptive_controller :
    (∀ (old_value : Bool) (utxos : List (TransactionOutpoint × UtxoEntry))
        (pending : PendingMap),
       should_maximize_inputs old_value utxos pending
         = nextMode old_value (estimatedFreeUtxoCount utxos.length (List.length pending))) ∧
    should_maximize_inputs false (dummy_utxos 1000001) [] = true ∧
    should_maximize_inputs true (dummy_utxos 499999) [] = false ∧
    should_maximize_inputs false (dummy_utxos 700000) [] = false ∧
    should_maximize_inputs true (dummy_utxos 700000) [] = true := by
  refine ⟨should_maximize_inputs_eq, ?_, ?_, ?_, ?_⟩ <;>
  · rw [should_maximize_inputs_eq]
    simp only [dummy_utxos, List.length_replicate]
    decide

/-- C8: a UTXO entry is spendable exactly when its creation score plus the
required confirmations — 10 for a regular output, 2 × coinbaseMaturity for
a coinbase output — is strictly below the current virtual DAA score. -/
theorem C8_spendability (entry : UtxoEntry) (virtual_daa_score coinbase_maturity : Nat) :
    is_utxo_spendable entry virtual_daa_score coinbase_maturity = true ↔
      entry.block_daa_score
          + (if entry.is_coinbase then 2 * coinbase_maturity else 10)
        < virtual_daa_score := by
  unfold is_utxo_spendable
  rcases h : entry.is_coinbase <;> simp [h, Nat.mul_comm]

/-- C9: for a fixed output count, both the estimated mass and the required
fee are strictly increasing in the input count. -/
theorem C9_fee_monotone (num_outs n1 n2 : Nat) (h : n1 < n2) :
    estimated_mass n1 num_outs < estimated_mass n2 num_outs ∧
      required_fee n1 num_outs < required_fee n2 num_outs := by
  unfold required_fee estimated_mass FEE_PER_MASS
  omega

/-- C9, witness: mass and fee at one input are below those at two inputs
for two outputs. -/
theorem C9_witness :
    estimated_mass 1 2 < estimated_mass 2 2 ∧ required_fee 1 2 < required_fee 2 2 :=
  C9_fee_monotone 2 1 2 (by decide)

/-- C10: with a strictly positive target, the selection amount is 0 exactly
when the input list is empty, and every non-empty result carries at least
the target amount — so the caller's `selected_amount == 0` test soundly
separates the no-funds outcome from a successful selection. -/
theorem C10_zero_iff_empty (utxos : List (TransactionOutpoint × UtxoEntry))
    (min_amount num_outs : Nat) (maximize_utxos : Bool) (pending : PendingMap)
    (hmin : 0 < min_amount) :
    ((select_utxos utxos min_amount num_outs maximize_utxos pending).2 = 0 ↔
      (select_utxos utxos min_amount num_outs maximize_utxos pending).1 = []) ∧
    ((select_utxos utxos min_amount num_outs maximize_utxos pending).1 ≠ [] →
      min_amount ≤ (select_utxos utxos min_amount num_outs maximize_utxos pending).2) := by
  rcases select_utxos_cases utxos min_amount num_outs maximize_utxos pending with h | ⟨h1, h2, h3⟩
  · rw [h]
    simp
  · refine ⟨⟨fun h0 => absurd h3 (by omega), fun he => ?_⟩, fun _ => h3⟩
    rw [he] at h1
    simp at h1

/-- C10, witness: on the worked example with target 10000 the returned
amount 87320 is nonzero, the input list is non-empty, and the amount covers
the target. -/
theorem C10_witness :
    ((select_utxos utxos3 10000 2 false []).2 = 0 ↔
      (select_utxos utxos3 10000 2 false []).1 = []) ∧
    ((select_utxos utxos3 10000 2 false []).1 ≠ [] →
      10000 ≤ (select_utxos utxos3 10000 2 false []).2) :=
  C10_zero_iff_empty utxos3 10000 2 false [] (by decide)

end Rothschild
